import Mathlib

/-!
Shallow embedding of `src/endpoints/instagram.py` of the yt-dlpython
repository: the snapsave de-obfuscation decoder (`decode_segment`,
`decode_data`, `extract_params`), the link-extraction tail of
`get_download_links`, and the `instagram_download` orchestration.

Python strings are modelled as `List Char`; Python code that can raise is
modelled in `Except PyErr`.  Definitions mirror the source line by line;
where a Python standard-library function is involved (`str.find`, slicing,
`str.split`, `str.strip`, `str.replace`, `urllib.parse.unquote`, `int`,
`chr`) its documented CPython semantics is embedded.
-/

/-- Python exception classes that the embedded code can raise:
`TypeError`, `ValueError` (also used for the "too many / not enough values
to unpack" error of sequence unpacking), `IndexError`. -/
inductive PyErr where
  | typeError
  | valueError
  | indexError
  deriving DecidableEq

/-- Python whitespace test used by `str.strip()` with no argument
(ASCII part: space, tab, newline, carriage return, vertical tab, form feed;
the inputs considered never contain the additional Unicode space characters
Python also strips). -/
def isPySpace (c : Char) : Bool :=
  c = ' ' || c = '\t' || c = '\n' || c = '\r' || c = Char.ofNat 11 || c = Char.ofNat 12

/-- Python `str.strip(chars)`: remove all leading and trailing characters
satisfying `p`. -/
def pyStrip (p : Char → Bool) (l : List Char) : List Char :=
  ((l.dropWhile p).reverse.dropWhile p).reverse

/-- Python `str.split(sep)` for a one-character separator: splits at every
occurrence of `sep`, keeping empty pieces; the empty string yields `[""]`. -/
def splitOnChar (sep : Char) : List Char → List (List Char)
  | [] => [[]]
  | c :: rest =>
    match splitOnChar sep rest with
    | [] => []
    | r :: rs => if c = sep then [] :: r :: rs else (c :: r) :: rs

/-- Helper for Python `str.find`: first index (counting from `k`) at which
`sub` is a prefix of the remaining text, `-1` if there is none. -/
def findAux (sub : List Char) : Nat → List Char → Int
  | k, [] => if sub.isPrefixOf ([] : List Char) then (k : Int) else -1
  | k, l@(_ :: t) => if sub.isPrefixOf l then (k : Int) else findAux sub (k + 1) t

/-- Python `s.find(sub)`: lowest index where `sub` occurs, else `-1`. -/
def pyFind (s sub : List Char) : Int := findAux sub 0 s

/-- Python `s.find(sub, start)` for a non-negative `start` (the only form the
source uses): search in `s[start:]`, reporting an absolute index. -/
def pyFindFrom (s sub : List Char) (start : Nat) : Int :=
  let r := findAux sub 0 (s.drop start)
  if r < 0 then -1 else r + (start : Int)

/-- Clamp one Python slice bound: a negative index counts from the end of the
string, and the result is clamped into `[0, n]`. -/
def sliceIdx (n : Nat) (i : Int) : Nat :=
  if i < 0 then (i + (n : Int)).toNat else min i.toNat n

/-- Python `s[i:j]`. -/
def pySlice (s : List Char) (i j : Int) : List Char :=
  (s.take (sliceIdx s.length j)).drop (sliceIdx s.length i)

/-- Python `str.replace(old, new)` for a one-character `old`: every
occurrence of `old` is replaced by `new`. -/
def pyReplaceChar (old : Char) (new : List Char) : List Char → List Char
  | [] => []
  | c :: rest => (if c = old then new else [c]) ++ pyReplaceChar old new rest

/-- Decimal string of a natural number, Python `str(j)` for `j ≥ 0`. -/
def natStr (n : Nat) : List Char := (Nat.repr n).toList

/-- The substitution loop of `decode_data`, lines 50–51:
`for j, char in enumerate(part3): segment = segment.replace(char, str(j))` —
the replacements are applied one after another on the running result,
in order of index `j = 0, 1, ...`. -/
def substAux : Nat → List Char → List Char → List Char
  | _, [], seg => seg
  | j, c :: cs, seg => substAux (j + 1) cs (pyReplaceChar c (natStr j) seg)

/-- Character substitution step of `decode_data` applied to one segment
(lines 50–51), starting the index at 0. -/
def substituteChars (p3 seg : List Char) : List Char := substAux 0 p3 seg

/-- The simultaneous (single-pass) substitution which the code does NOT
implement: each character of the segment is looked up in `p3` once.  It is
defined only to be contrasted with the sequential `substituteChars`. -/
def simultaneousSubst (p3 seg : List Char) : List Char :=
  seg.foldr (fun c acc => (if c ∈ p3 then natStr (p3.indexOf c) else [c]) ++ acc) []

/-- The 64-character master alphabet of `decode_segment` (line 25). -/
def charSet : List Char :=
  "0123456789abcdefghijklmnopqrstuvwxyzABCDEFGHIJKLMNOPQRSTUVWXYZ+/".toList

/-- The value-accumulation loop of `decode_segment` (lines 29–32): iterate
the reversed segment with
`decoded_value += base_set.index(char) * base ** index`, characters outside
the base alphabet contributing nothing. -/
def valueLoop (baseSet : List Char) (base : Nat) : Nat → List Char → Nat
  | _, [] => 0
  | index, c :: rest =>
    (if c ∈ baseSet then baseSet.indexOf c * base ^ index else 0)
      + valueLoop baseSet base (index + 1) rest

/-- The render loop of `decode_segment` (lines 34–37):
`while decoded_value > 0: result = decode_set[decoded_value % length] + result;
decoded_value //= length`.  The loop is phrased with an explicit fuel
argument to keep it structurally recursive; `renderLoop` passes fuel `v`,
which suffices because the value strictly decreases at every iteration when
`1 < length`.  For `length ≤ 1` the Python loop would never terminate (all
claims restrict `length` to `2..64`), so the guard also tests `1 < length`.
An index `decoded_value % length` past the end of `decode_set` (possible in
Python only for `length > 64`, an `IndexError` there) is defaulted. -/
def renderLoopF (decodeSet : List Char) (length : Nat) : Nat → Nat → List Char
  | 0, _ => []
  | fuel + 1, v =>
    if 0 < v ∧ 1 < length then
      renderLoopF decodeSet length fuel (v / length) ++ [decodeSet.getD (v % length) '0']
    else []

/-- The render loop of `decode_segment` with its fuel instantiated. -/
def renderLoop (decodeSet : List Char) (length v : Nat) : List Char :=
  renderLoopF decodeSet length v v

/-- `decode_segment` (lines 24–39): interpret `segment` over the first `base`
characters of `charSet`, then re-render the value over the first `length`
characters; `result or "0"` renders value zero as `"0"`. -/
def decode_segment (segment : List Char) (base length : Nat) : List Char :=
  let baseSet := charSet.take base
  let decodeSet := charSet.take length
  let decodedValue := valueLoop baseSet base 0 segment.reverse
  let result := renderLoop decodeSet length decodedValue
  if result.isEmpty then ['0'] else result

/-- Python raises `TypeError: string indices must be integers` when a string
is indexed by a string.  This models the expression `part3[part5]` at line 45
of the source, where `part5` is still a `str` (the code never applies `int`
to it). -/
def strIndexByStr (_s _idx : List Char) : Except PyErr Char :=
  Except.error PyErr.typeError

/-- Hexadecimal digit value of a character, if any. -/
def hexVal (c : Char) : Option Nat :=
  if '0' ≤ c ∧ c ≤ '9' then some (c.toNat - 48)
  else if 'a' ≤ c ∧ c ≤ 'f' then some (c.toNat - 87)
  else if 'A' ≤ c ∧ c ≤ 'F' then some (c.toNat - 55)
  else none

/-- Percent-decoding core of `urllib.parse.unquote`, restricted to ASCII
escapes: a `%XX` with hexadecimal `XX < 0x80` decodes to the character with
that code, malformed escapes are kept verbatim (as in Python), and `%XX`
escapes with `XX ≥ 0x80` are also kept verbatim (Python instead groups
consecutive high bytes and UTF-8-decodes them; no input considered in this
development contains such escapes). -/
def unquoteAux : List Char → List Char
  | [] => []
  | '%' :: h1 :: h2 :: rest =>
    match hexVal h1, hexVal h2 with
    | some a, some b =>
      if 16 * a + b < 128 then Char.ofNat (16 * a + b) :: unquoteAux rest
      else '%' :: h1 :: h2 :: unquoteAux rest
    | _, _ => '%' :: unquoteAux (h1 :: h2 :: rest)
  | c :: rest => c :: unquoteAux rest

/-- Python `urllib.parse.unquote`: a string with no `%` is returned
unchanged (CPython's fast path), otherwise escapes are decoded. -/
def pyUnquote (s : List Char) : List Char :=
  if '%' ∈ s then unquoteAux s else s

/-- `decode_data` (lines 21–56) exactly as written in the source.  The six
fields are bound by sequence unpacking (a list of any other length raises
`ValueError`).  The scan loop `while i < len(part1)` is entered iff `part1`
is nonempty, and its very first evaluation, the condition
`part1[i] != part3[part5]` at line 45, indexes the string `part3` with the
string `part5` — the code never casts `part4`/`part5` to `int` — which in
Python raises `TypeError`.  So the function returns the percent-decoded
empty accumulator when `part1` is empty and raises `TypeError` otherwise;
the rest of the loop body is unreachable. -/
def decode_data (data : List (List Char)) : Except PyErr (List Char) :=
  match data with
  | [part1, _part2, part3, _part4, part5, _part6] =>
    if part1.isEmpty then Except.ok (pyUnquote [])
    else (strIndexByStr part3 part5).bind fun _ => Except.error PyErr.typeError
  | _ => Except.error PyErr.valueError

/-- The literal marker of `extract_params` (line 59); its final brace-open
pair is written with an escape for the brace. -/
def markerStr : List Char := "decodeURIComponent(escape(r))\x7d(".toList

/-- `extract_params` (lines 58–66).  `data.find(marker)` yields `-1` when the
marker is absent, so `start` is then `-1 + 31 = 30` and the function still
slices and splits — it can never raise.  `start` is always `≥ 30 ≥ 0`, so the
`Int.toNat` handed to `pyFindFrom` is faithful to Python's `find(sub, start)`.
Each comma-separated item is stripped of surrounding whitespace and then of
surrounding double quotes. -/
def extract_params (data : List Char) : List (List Char) :=
  let start : Int := pyFind data markerStr + (markerStr.length : Int)
  let stop : Int := pyFindFrom data [')', ')'] start.toNat
  let paramsStr := pySlice data start stop
  (splitOnChar ',' paramsStr).map fun item =>
    pyStrip (fun c => c = '"') (pyStrip isPySpace item)

/-- Python `int(str)`: optional surrounding whitespace, an optional sign,
then at least one decimal digit; anything else raises `ValueError`.
(Digit-group underscores, accepted by CPython, are not modelled; no input
considered contains them.) -/
def pyIntParse (s : List Char) : Except PyErr Int :=
  let t := pyStrip isPySpace s
  let digitsVal : List Char → Int := fun ds =>
    (ds.foldl (fun a c => 10 * a + (c.toNat - 48)) 0 : Nat)
  match t with
  | '-' :: ds =>
    if ds ≠ [] ∧ ds.all Char.isDigit then Except.ok (-(digitsVal ds))
    else Except.error PyErr.valueError
  | '+' :: ds =>
    if ds ≠ [] ∧ ds.all Char.isDigit then Except.ok (digitsVal ds)
    else Except.error PyErr.valueError
  | ds =>
    if ds ≠ [] ∧ ds.all Char.isDigit then Except.ok (digitsVal ds)
    else Except.error PyErr.valueError

/-- Python `chr`: code points `0 ≤ i < 0x110000` only.  (Python also accepts
the surrogate range, which `Char` cannot represent; no input considered
produces a surrogate code point.) -/
def pyChr (i : Int) : Except PyErr Char :=
  if 0 ≤ i ∧ i < 1114112 then Except.ok (Char.ofNat i.toNat)
  else Except.error PyErr.indexError

/-- Python `s[i]` for a natural index. -/
def pyIndexChar (l : List Char) (i : Nat) : Except PyErr Char :=
  if i < l.length then Except.ok (l.getD i '0') else Except.error PyErr.indexError

/-- The segment scan of `decode_data` (lines 43–48) for a given delimiter:
collect characters up to the delimiter (or the end of the string), skip the
delimiter, repeat while input remains.  A trailing delimiter produces no
extra segment, because consuming it ends the outer `while`.  Fuel keeps the
recursion structural; `scanSegments` passes the string length, which
suffices since every round consumes at least one character. -/
def scanSegmentsF (delim : Char) : Nat → List Char → List (List Char)
  | 0, _ => []
  | _, [] => []
  | fuel + 1, l@(_ :: _) =>
    let seg : List Char := l.takeWhile fun c => c != delim
    seg :: scanSegmentsF delim fuel (l.drop (seg.length + 1))

/-- The segment scan of `decode_data` with its fuel instantiated. -/
def scanSegments (delim : Char) (l : List Char) : List (List Char) :=
  scanSegmentsF delim l.length l

/-- The `decode_data` loop as the specification describes it, that is with
`part4` and `part5` cast to integers (`int(part4)`, `int(part5)`).  The
source omits these casts (see `decode_data` above); this definition realizes
the obviously intended semantics so that the divergence can be exhibited:
split `part1` on the delimiter `part3[part5]`, substitute, feed each
nonempty segment to `decode_segment(segment, part5, 10)`, parse the decimal
result, subtract `part4`, append `chr` of it, and percent-decode the
accumulator. -/
def decode_data_int (data : List (List Char)) : Except PyErr (List Char) :=
  match data with
  | [part1, _part2, part3, part4s, part5s, _part6] =>
    (pyIntParse part4s).bind fun part4 =>
    (pyIntParse part5s).bind fun part5i =>
    if part5i < 0 then Except.error PyErr.valueError
    else
      let part5 := part5i.toNat
      (pyIndexChar part3 part5).bind fun delim =>
      ((scanSegments delim part1).foldlM
        (fun (acc seg : List Char) =>
          if seg.isEmpty then Except.ok acc
          else
            let sub := substituteChars part3 seg
            (pyIntParse (decode_segment sub part5 10)).bind fun n =>
            (pyChr (n - part4)).bind fun ch =>
            Except.ok (acc ++ [ch]))
        ([] : List Char)).bind fun part6 =>
      Except.ok (pyUnquote part6)
  | _ => Except.error PyErr.valueError

/-- The intermediary's own origin, prefixed to relative links (line 104). -/
def snapOrigin : List Char := "https://snapsave.app".toList

/-- Link absolutization of `get_download_links` (lines 103–104):
`re.match(r'https?://', url)` anchors at the start of the string, so an
`href` beginning with `http://` or `https://` passes through unchanged and
every other `href` is prefixed with the intermediary's origin. -/
def linkAbsolutize (href : List Char) : List Char :=
  if "http://".toList.isPrefixOf href || "https://".toList.isPrefixOf href then href
  else snapOrigin ++ href

/-- The link-collection loop of `get_download_links` (lines 99–105).  The
BeautifulSoup step is abstracted as the input list: one entry per
`download-items__btn` element in document order, holding the `href` of its
first anchor child if that anchor exists and has the attribute (`none`
otherwise).  `if link and link.get('href')` also skips an empty `href`
(falsy in Python); every collected `href` is absolutized and appended. -/
def collectLinks : List (Option (List Char)) → List (List Char)
  | [] => []
  | none :: rest => collectLinks rest
  | some h :: rest =>
    if h.isEmpty then collectLinks rest
    else linkAbsolutize h :: collectLinks rest

/-- The result-assembly tail of `get_download_links` (lines 107–118): with no
collected links it raises `ValueError("No data found")`, which the
function's own `except` wrapper (lines 117–118) re-raises as
`Exception("Error: No data found")`; otherwise it returns the link list
together with the requested source URL (the `{url, metadata}` dictionary,
modelled as a pair). -/
def downloadLinksResult (url : List Char) (btns : List (Option (List Char))) :
    Except (List Char) (List (List Char) × List Char) :=
  if (collectLinks btns).isEmpty then Except.error ("Error: No data found".toList)
  else Except.ok (collectLinks btns, url)

/-- User-visible outcome of `instagram_download`: either a populated result
dictionary (links plus metadata, from either resolution path) or the plain
message dictionary. -/
inductive IgResponse where
  | media (urls : List (List Char)) (source : List Char)
  | message (m : List Char)
  deriving DecidableEq

/-- `instagram_download` (lines 247–266): try the GraphQL path, on any
failure try the snapsave fallback, and when both fail return the literal
dictionary `{'msg': 'Try again later'}` — never re-raise either error.  The
two network-bound path outcomes are abstracted as `Except` parameters. -/
def instagram_download (primary fallback : Except (List Char) IgResponse) : IgResponse :=
  match primary with
  | Except.ok r => r
  | Except.error _ =>
    match fallback with
    | Except.ok r => r
    | Except.error _ => IgResponse.message ("Try again later".toList)

/-- Digit value of a character over the first `k` characters of the master
alphabet: its first-occurrence index there, and zero for a character outside
the alphabet (the defensive case of lines 31–32). -/
def charSetNum (k : Nat) (c : Char) : Nat :=
  if c ∈ charSet.take k then (charSet.take k).indexOf c else 0

/-- Little-endian valuation over the first `b` characters of the master
alphabet: the character at position `i` from the head contributes
`digitValue * b ^ i`.  Applied to a reversed segment this is literally the
specification's reading of the value loop — iterate the segment in reverse
and accumulate `digitValue * base ^ position`. -/
def valLE (b : Nat) : List Char → Nat
  | [] => 0
  | c :: r => charSetNum b c + b * valLE b r

/-- The specification's rendering step, stated independently of the source's
loop: the base-`length` digits of `n` (most significant first) mapped through
the first `length` characters of the master alphabet, value zero rendered as
the single character `"0"`. -/
def renderNumeral (length n : Nat) : List Char :=
  if n = 0 then ['0']
  else ((Nat.digits length n).map fun d => (charSet.take length).getD d '0').reverse

theorem valueLoop_eq (b : Nat) (r : List Char) : ∀ k : Nat,
    valueLoop (charSet.take b) b k r = b ^ k * valLE b r := by
  induction r with
  | nil => intro k; simp [valueLoop, valLE]
  | cons c rest ih =>
    intro k
    simp only [valueLoop, valLE, charSetNum, ih (k + 1)]
    split_ifs with h <;> ring

theorem renderLoopF_eq (ds : List Char) (L : Nat) (hL : 1 < L) :
    ∀ fuel v : Nat, v ≤ fuel →
      renderLoopF ds L fuel v = ((Nat.digits L v).map fun d => ds.getD d '0').reverse := by
  intro fuel
  induction fuel with
  | zero =>
    intro v hv
    have hv0 : v = 0 := Nat.le_zero.mp hv
    subst hv0
    simp [renderLoopF]
  | succ fuel ih =>
    intro v hv
    by_cases hv0 : 0 < v
    · have hdiv : v / L < v := Nat.div_lt_self hv0 hL
      rw [renderLoopF, if_pos ⟨hv0, hL⟩, ih (v / L) (by omega),
        Nat.digits_def' hL hv0]
      simp [List.reverse_cons]
    · have : v = 0 := by omega
      subst this
      simp [renderLoopF]

theorem decode_segment_spec (seg : List Char) (b L : Nat) (hL : 1 < L) :
    decode_segment seg b L = renderNumeral L (valLE b seg.reverse) := by
  have hval : valueLoop (charSet.take b) b 0 seg.reverse = valLE b seg.reverse := by
    rw [valueLoop_eq]; simp
  simp only [decode_segment, renderLoop, hval]
  rw [renderLoopF_eq (charSet.take L) L hL (valLE b seg.reverse) (valLE b seg.reverse) le_rfl]
  by_cases hn : valLE b seg.reverse = 0
  · simp [renderNumeral, hn]
  · have hd : Nat.digits L (valLE b seg.reverse) ≠ [] :=
      Nat.digits_ne_nil_iff_ne_zero.mpr hn
    simp [renderNumeral, hn, List.isEmpty_iff, hd]

set_option maxHeartbeats 4000000 in
theorem charSet_digit : ∀ b < 65, ∀ d < b,
    charSetNum b ((charSet.take b).getD d '0') = d := by decide

theorem charSet_zero : ∀ b < 65, 2 ≤ b → charSetNum b '0' = 0 := by decide

theorem valLE_map_digits (b : Nat) (hb : b ≤ 64) :
    ∀ ds : List Nat, (∀ d ∈ ds, d < b) →
      valLE b (ds.map fun d => (charSet.take b).getD d '0') = Nat.ofDigits b ds := by
  intro ds
  induction ds with
  | nil => intro _; simp [valLE]
  | cons d tl ih =>
    intro h
    simp only [List.map_cons, valLE, Nat.ofDigits_cons]
    rw [charSet_digit b (by omega) d (h d (by simp)), ih fun x hx => h x (by simp [hx])]

theorem valLE_renderNumeral (b n : Nat) (hb2 : 2 ≤ b) (hb64 : b ≤ 64) :
    valLE b (renderNumeral b n).reverse = n := by
  by_cases hn : n = 0
  · subst hn
    have : charSetNum b '0' = 0 := charSet_zero b (by omega) hb2
    simp [renderNumeral, valLE, this]
  · rw [renderNumeral, if_neg hn, List.reverse_reverse,
      valLE_map_digits b hb64 _ fun d hd => Nat.digits_lt_base (by omega) hd]
    exact Nat.ofDigits_digits b n

theorem substAux_append : ∀ (cs : List Char) (j : Nat) (c : Char) (seg : List Char),
    substAux j (cs ++ [c]) seg = pyReplaceChar c (natStr (j + cs.length)) (substAux j cs seg) := by
  intro cs
  induction cs with
  | nil => intro j c seg; simp [substAux]
  | cons x xs ih =>
    intro j c seg
    simp only [List.cons_append, substAux, List.length_cons, List.append_eq]
    rw [ih]
    congr 2
    omega

/-- C1: the claim says that for a payload whose fields `p4`, `p5` are numeric
strings, `decode_data` treats them as integers and decodes segment by
segment.  The code never casts them, so on any payload with a nonempty
ciphertext the very first loop condition `part1[i] != part3[part5]` raises
`TypeError`; the same payload decodes to `"Hi"` under the intended
semantics with the casts inserted (`decode_data_int`). -/
theorem decode_data_missing_int_cast_bug :
    decode_data ["ccbcdbbaac".toList, [], "abcd".toList, "5".toList, "3".toList, []]
        = Except.error PyErr.typeError ∧
    decode_data_int ["ccbcdbbaac".toList, [], "abcd".toList, "5".toList, "3".toList, []]
        = Except.ok "Hi".toList :=
  ⟨rfl, rfl⟩

/-- C2: for `base, length ∈ 2..64`, `decode_segment` interprets the segment
by scanning it in reverse and accumulating `digitValue * base ^ position`
over the first `base` characters of the master alphabet (so the most
significant digit — the head of the segment — is reached last in the scan;
characters outside the alphabet contribute zero), and re-renders that
integer over the first `length` characters, most significant digit first,
zero rendering as `"0"`. -/
theorem decode_segment_radix_conversion (segment : List Char) (base length : Nat)
    (_hb1 : 2 ≤ base) (_hb2 : base ≤ 64) (hl1 : 2 ≤ length) (hl2 : length ≤ 64) :
    decode_segment segment base length = renderNumeral length (valLE base segment.reverse) :=
  decode_segment_spec segment base length (by omega)

/-- Witness for C2 at `segment = "zz"`, `base = 36`, `length = 10`. -/
theorem decode_segment_radix_conversion_instance :
    decode_segment "zz".toList 36 10 = renderNumeral 10 (valLE 36 "zz".toList.reverse) :=
  decode_segment_radix_conversion "zz".toList 36 10 (by norm_num) (by norm_num)
    (by norm_num) (by norm_num)

/-- C3: the radix-conversion primitive round-trips.  For `n ≤ 10^6` and
`base, length ∈ 2..64`: rendering `n` over the length-sized alphabet and
feeding that string to `decode_segment` with the roles of base and length
swapped re-renders the same integer `n` in the base-sized alphabet, and
valuing the result back in base `base` recovers `n` exactly. -/
theorem decode_segment_round_trip (n base length : Nat) (_hn : n ≤ 1000000)
    (hb1 : 2 ≤ base) (hb2 : base ≤ 64) (hl1 : 2 ≤ length) (hl2 : length ≤ 64) :
    decode_segment (renderNumeral length n) length base = renderNumeral base n ∧
    valLE base (decode_segment (renderNumeral length n) length base).reverse = n := by
  have h1 : decode_segment (renderNumeral length n) length base
      = renderNumeral base (valLE length (renderNumeral length n).reverse) :=
    decode_segment_spec _ length base (by omega)
  rw [valLE_renderNumeral length n hl1 hl2] at h1
  exact ⟨h1, by rw [h1]; exact valLE_renderNumeral base n hb1 hb2⟩

/-- Witness for C3 at `n = 1295`, `base = 36`, `length = 2`. -/
theorem decode_segment_round_trip_instance :
    decode_segment (renderNumeral 2 1295) 2 36 = renderNumeral 36 1295 ∧
    valLE 36 (decode_segment (renderNumeral 2 1295) 2 36).reverse = 1295 :=
  decode_segment_round_trip 1295 36 2 (by norm_num) (by norm_num) (by norm_num)
    (by norm_num) (by norm_num)

/-- C4: the character-substitution step of `decode_data` is sequential, not
simultaneous.  For `p3 = "ab"` the segment `"a"` becomes `"0"` and `"b"`
becomes `"1"`; for `p3 = "a0"` the segment `"a"` becomes `"0"` and then the
later replacement re-matches that digit, giving `"1"`, whereas a
simultaneous substitution would give `"0"`; and in general extending `p3`
by one character applies that character's replacement after all earlier
ones, on the running result. -/
theorem substitution_sequential :
    substituteChars "ab".toList "a".toList = "0".toList ∧
    substituteChars "ab".toList "b".toList = "1".toList ∧
    substituteChars "a0".toList "a".toList = "1".toList ∧
    simultaneousSubst "a0".toList "a".toList = "0".toList ∧
    ∀ (p3 : List Char) (c : Char) (seg : List Char),
      substituteChars (p3 ++ [c]) seg
        = pyReplaceChar c (natStr p3.length) (substituteChars p3 seg) := by
  refine ⟨rfl, rfl, rfl, rfl, ?_⟩
  intro p3 c seg
  simpa [substituteChars] using substAux_append p3 0 c seg

/-- C5 counterexample: on a marker-less input `extract_params` does not fail
at all — `find` yields `-1`, `start` becomes `30`, and the function silently
returns a garbage slice (here ten of the forty `a`s); the failure only
surfaces later as a generic unpacking `ValueError` inside `decode_data`,
not as any typed malformed-response error. -/
theorem extract_params_markerless_garbage :
    extract_params "aaaaaaaaaaaaaaaaaaaaaaaaaaaaaaaaaaaaaaaa))".toList
        = ["aaaaaaaaaa".toList] ∧
    decode_data (extract_params "aaaaaaaaaaaaaaaaaaaaaaaaaaaaaaaaaaaaaaaa))".toList)
        = Except.error PyErr.valueError :=
  ⟨rfl, rfl⟩

/-- C5 amended: on every input lacking the marker, `extract_params` raises
nothing and returns the stripped comma-split of
`data[30 : data.find('))', 30)]`. -/
theorem extract_params_markerless_no_failure (data : List Char)
    (h : pyFind data markerStr = -1) :
    extract_params data
      = (splitOnChar ',' (pySlice data 30 (pyFindFrom data [')', ')'] 30))).map fun item =>
          pyStrip (fun c => c = '"') (pyStrip isPySpace item) := by
  have hlen : (markerStr.length : Int) = 31 := by decide
  have h30 : (30 : Int).toNat = 30 := rfl
  simp only [extract_params, h, hlen]
  norm_num [h30]

/-- Witness for the amended C5 at the marker-less input `"xyz"`. -/
theorem extract_params_markerless_no_failure_instance :
    extract_params "xyz".toList
      = (splitOnChar ',' (pySlice "xyz".toList 30 (pyFindFrom "xyz".toList [')', ')'] 30))).map
          fun item => pyStrip (fun c => c = '"') (pyStrip isPySpace item) :=
  extract_params_markerless_no_failure "xyz".toList (by decide)

/-- C6: the decoder never returns an empty-success result: the link phase of
`get_download_links` either fails or delivers at least one link, and with
zero collected links it fails with the `ValueError("No data found")`
(wrapped by the function's own handler into `"Error: No data found"`). -/
theorem download_links_no_empty_success (url : List Char) (btns : List (Option (List Char))) :
    (∀ links src, downloadLinksResult url btns = Except.ok (links, src) → links ≠ []) ∧
    (collectLinks btns = [] →
      downloadLinksResult url btns = Except.error ("Error: No data found".toList)) := by
  constructor
  · intro links src hok
    by_cases he : (collectLinks btns).isEmpty
    · rw [downloadLinksResult, if_pos he] at hok
      exact absurd hok (by simp)
    · rw [downloadLinksResult, if_neg he] at hok
      injection hok with hp
      have hl : collectLinks btns = links := congrArg Prod.fst hp
      intro hnil
      exact he (by rw [List.isEmpty_iff, hl, hnil])
  · intro hc
    rw [downloadLinksResult, if_pos (by rw [List.isEmpty_iff]; exact hc)]

/-- Witness for C6: zero button elements produce the failure, not `ok []`. -/
theorem download_links_no_empty_success_instance :
    downloadLinksResult "u".toList [] = Except.error ("Error: No data found".toList) :=
  (download_links_no_empty_success "u".toList []).2 rfl

/-- C7: every collected `href` that does not start with `http://` or
`https://` is prefixed with the intermediary's origin, an already-absolute
`href` passes through unchanged, and the collected list is exactly the
present, nonempty `href`s in document order, each absolutized. -/
theorem href_absolutization :
    (∀ h : List Char,
        ("http://".toList.isPrefixOf h || "https://".toList.isPrefixOf h) = false →
        linkAbsolutize h = snapOrigin ++ h) ∧
    (∀ h : List Char,
        ("http://".toList.isPrefixOf h || "https://".toList.isPrefixOf h) = true →
        linkAbsolutize h = h) ∧
    ∀ btns : List (Option (List Char)),
      collectLinks btns = ((btns.filterMap id).filter fun h => !h.isEmpty).map linkAbsolutize := by
  refine ⟨?_, ?_, ?_⟩
  · intro h hf
    simp only [linkAbsolutize, hf, Bool.false_eq_true, if_false]
  · intro h ht
    rw [linkAbsolutize, if_pos ht]
  · intro btns
    induction btns with
    | nil => rfl
    | cons o rest ih =>
      cases o with
      | none => simpa [collectLinks] using ih
      | some h =>
        by_cases hh : h.isEmpty
        · simp [collectLinks, hh, ih]
        · simp [collectLinks, hh, ih]

/-- Witness for C7: the relative `/d/abc.mp4` is absolutized, the absolute
URL passes through unchanged. -/
theorem href_absolutization_instance :
    linkAbsolutize "/d/abc.mp4".toList = "https://snapsave.app/d/abc.mp4".toList ∧
    linkAbsolutize "https://snapsave.app/d/abc.mp4".toList
      = "https://snapsave.app/d/abc.mp4".toList := by
  constructor
  · rw [href_absolutization.1 "/d/abc.mp4".toList (by decide)]
    decide
  · exact href_absolutization.2.1 "https://snapsave.app/d/abc.mp4".toList (by decide)

/-- C8 counterexample: with more than six comma-separated fields,
`extract_params` binds and returns all seven of them, and `decode_data`'s
six-way sequence unpacking then raises `ValueError` — the extra fields are
not ignored and decoding does not proceed on the first six. -/
theorem extract_params_seven_fields_unpack_error :
    extract_params (markerStr ++ "\"a\",\"b\",\"c\",\"1\",\"2\",\"x\",\"y\"))".toList)
        = ["a".toList, "b".toList, "c".toList, "1".toList, "2".toList, "x".toList, "y".toList] ∧
    decode_data (extract_params (markerStr ++ "\"a\",\"b\",\"c\",\"1\",\"2\",\"x\",\"y\"))".toList))
        = Except.error PyErr.valueError :=
  ⟨rfl, rfl⟩

/-- C8 amended: `extract_params` returns every field without truncation, and
`decode_data` raises an unpacking `ValueError` on any parameter list with
more than six fields. -/
theorem decode_data_extra_fields_value_error (data : List (List Char))
    (h : 6 < data.length) : decode_data data = Except.error PyErr.valueError := by
  rcases data with _ | ⟨a, _ | ⟨b, _ | ⟨c, _ | ⟨d, _ | ⟨e, _ | ⟨f, _ | ⟨g, t⟩⟩⟩⟩⟩⟩⟩ <;>
    first
      | rfl
      | simp at h

/-- Witness for the amended C8 at a seven-field list. -/
theorem decode_data_extra_fields_value_error_instance :
    decode_data [[], [], [], [], [], [], []] = Except.error PyErr.valueError :=
  decode_data_extra_fields_value_error [[], [], [], [], [], [], []] (by decide)

/-- C9: when both the GraphQL path and the snapsave fallback fail,
`instagram_download` returns the literal message dictionary
`{'msg': 'Try again later'}` — whatever the two internal errors were —
instead of raising or propagating either of them. -/
theorem instagram_download_both_paths_fail_message (e1 e2 : List Char) :
    instagram_download (Except.error e1) (Except.error e2)
      = IgResponse.message ("Try again later".toList) := rfl

/-- C10: the claim says consecutive or trailing delimiters contribute no
character to the decoded output.  The skip guard `if segment:` is indeed in
the code, but it is unreachable: on this payload, whose ciphertext `"aa"`
consists of delimiters only, the uncast `part3[part5]` raises `TypeError`
first; under the intended semantics with the casts inserted
(`decode_data_int`) the empty segments are skipped and the decode returns
the empty string unchanged. -/
theorem decode_data_empty_segment_bug :
    decode_data ["aa".toList, [], "a".toList, "0".toList, "0".toList, []]
        = Except.error PyErr.typeError ∧
    decode_data_int ["aa".toList, [], "a".toList, "0".toList, "0".toList, []]
        = Except.ok [] :=
  ⟨rfl, rfl⟩
